import Mathlib

set_option maxRecDepth 100000

/-!
Shallow embedding of the `log-rate-limit` stream rate-limit decision engine
(`src/log_rate_limit/log_rate_limit.py` and `src/log_rate_limit/streams.py`).

Times are modelled as rationals (`ℚ`); Python's unbounded integers as `ℤ`.
Python dictionaries (`defaultdict(StreamInfo)` and the Redis key space) are
modelled as association lists in insertion order with unique keys, which is
the observable behaviour of a Python `dict`.  The user-supplied message
templates (`summary_msg`, `expire_msg`, i.e. Python format strings applied
with keyword arguments) are modelled as functions from their substitution
arguments to strings.
-/

/-- Stream identifiers: `StreamID = Optional[str]` in the source. -/
abbrev StreamID := Option String

/-- Per-stream record, `StreamInfo` from the source (both files define the
same three fields with defaults `0.0`, `0`, `0`). -/
structure StreamInfo where
  next_valid_time : ℚ
  skipped_log_count : ℤ
  count_logs_left : ℤ
deriving Repr, DecidableEq

/-- The default `StreamInfo()` constructed by the `defaultdict` factory. -/
def StreamInfo.init : StreamInfo := ⟨0, 0, 0⟩

/-- Association-list lookup, modelling Python `k in d` / `d[k]` reads. -/
def findKey {κ : Type} [DecidableEq κ] : List (κ × StreamInfo) → κ → Option StreamInfo
  | [], _ => none
  | (k, v) :: rest, key => if k = key then some v else findKey rest key

/-- Association-list write, modelling Python `d[k] = v`: updates the entry in
place when the key exists, otherwise appends at the end (dict insertion
order). -/
def setKey {κ : Type} [DecidableEq κ] :
    List (κ × StreamInfo) → κ → StreamInfo → List (κ × StreamInfo)
  | [], key, v => [(key, v)]
  | (k, v') :: rest, key, v =>
    if k = key then (k, v) :: rest else (k, v') :: setKey rest key v

/-- Association-list delete, modelling Python `del d[k]` (a dict holds each
key at most once, so removing every occurrence is the same operation). -/
def eraseKey {κ : Type} [DecidableEq κ] (ss : List (κ × StreamInfo)) (key : κ) :
    List (κ × StreamInfo) :=
  ss.filter (fun p => decide (¬ p.1 = key))

/-- `defaultdict(StreamInfo)` read: `d[k]` returns the stored entry, or
inserts and returns a fresh default `StreamInfo()` when the key is absent. -/
def getOrCreate {κ : Type} [DecidableEq κ] (ss : List (κ × StreamInfo)) (key : κ) :
    StreamInfo × List (κ × StreamInfo) :=
  match findKey ss key with
  | some v => (v, ss)
  | none => (StreamInfo.init, ss ++ [(key, StreamInfo.init)])

/-- The keys of the store, in insertion order (`d.keys()`). -/
def keysOf {κ : Type} (ss : List (κ × StreamInfo)) : List κ := ss.map Prod.fst

/-- The unique-keys invariant every Python dict satisfies. -/
def NodupKeys {κ : Type} (ss : List (κ × StreamInfo)) : Prop := (keysOf ss).Nodup

/-- The in-memory store of the filter: `self._streams`, a
`defaultdict(StreamInfo)` keyed by `StreamID`. -/
abbrev Streams := List (StreamID × StreamInfo)

/-- Keyword arguments passed to `summary_msg.format(...)` at
`log_rate_limit.py:293`. -/
structure SummaryArgs where
  numskip : ℤ
  stream_id : StreamID
  period_sec : ℚ

/-- Keyword arguments passed to `expire_msg.format(...)` at
`log_rate_limit.py:361`. -/
structure ExpireArgs where
  numskip : ℤ
  stream_id : StreamID
  expire_time_sec : ℚ

/-- `DefaultSID` constants from the source: how an undefined stream ID is
determined. -/
inductive DefaultStreamID
  | NONE
  | FILE_LINE_NO
  | LOG_MESSAGE
deriving Repr, DecidableEq

/-- The construction-time configuration of `StreamRateLimitFilter` (the
fields stored by `__init__`). -/
structure Config where
  period_sec : ℚ
  allow_next_n : ℤ
  default_stream_id : DefaultStreamID
  filter_undefined : Bool
  summary : Bool
  summary_msg : SummaryArgs → String
  expire_check_sec : ℚ
  expire_offset_sec : ℚ
  expire_msg : ExpireArgs → String
  stream_id_max_len : Option ℤ

/-- The part of a `logging.LogRecord` read by `filter`: the rendered message
(`record.getMessage()` / `record.msg`), the call-site metadata, and the
optional per-record override attributes (`None` = attribute absent). -/
structure LogEvent where
  msg : String
  filename : String
  lineno : ℤ
  stream_id : Option StreamID
  period_sec : Option ℚ
  allow_next_n : Option ℤ
  summary : Option Bool
  summary_msg : Option (SummaryArgs → String)
  expire_offset_sec : Option ℚ
  expire_msg : Option (ExpireArgs → String)

/-- Python string slice `s[0:n]` (with `s[0:None]` selecting the whole
string, and a negative bound counting from the end, clamped at zero). -/
def pySlice0 (s : String) : Option ℤ → String
  | none => s
  | some n => if 0 ≤ n then s.take n.toNat else s.take (s.length - (-n).toNat)

/-- `StreamRateLimitFilter._get_default_stream_id`. -/
def getDefaultStreamId (cfg : Config) (e : LogEvent) : StreamID :=
  match cfg.default_stream_id with
  | .NONE => none
  | .FILE_LINE_NO => some (e.filename ++ ":" ++ toString e.lineno)
  | .LOG_MESSAGE => some e.msg

/-- Stream-ID resolution performed in `filter` (lines 251-264): per-record
override or default, then truncation to `stream_id_max_len`. -/
def resolveStreamId (cfg : Config) (e : LogEvent) : StreamID :=
  (e.stream_id.getD (getDefaultStreamId cfg e)).map
    (fun s => pySlice0 s cfg.stream_id_max_len)

/-- Mutable state of a `StreamRateLimitFilter` instance. -/
structure FilterState where
  next_expire_check_time : Option ℚ
  streams : Streams
deriving Repr, DecidableEq

/-- `StreamRateLimitFilter.should_trigger` (with an explicit `current_time`).
Note the `defaultdict` access: querying a never-seen stream inserts a fresh
default entry. -/
def should_trigger (st : FilterState) (sid : StreamID) (now : ℚ) : Bool × FilterState :=
  let p := getOrCreate st.streams sid
  (decide (p.1.next_valid_time ≤ now), ⟨st.next_expire_check_time, p.2⟩)

/-- `StreamRateLimitFilter.reset_trigger` (with an explicit period and
`current_time`). -/
def reset_trigger (st : FilterState) (sid : StreamID) (override_period_sec now : ℚ) :
    FilterState :=
  let p := getOrCreate st.streams sid
  ⟨st.next_expire_check_time,
    setKey p.2 sid { p.1 with next_valid_time := now + override_period_sec }⟩

/-- `StreamRateLimitFilter.clear_old_streams` = `StreamsCache.clear_old`:
collect the keys whose `next_valid_time + expire_time_sec < current_time`,
build the expiry note from the skipped counts of those entries, then delete
them.  (The source reads each doomed entry before deleting it and keys are
unique, so reading from the original store is the same.) -/
def clearOldStreams (ss : Streams) (expire_time_sec now : ℚ)
    (expire_msg : ExpireArgs → String) : String × Streams :=
  let keys_to_remove :=
    keysOf (ss.filter (fun p => decide (p.2.next_valid_time + expire_time_sec < now)))
  let expire_note := keys_to_remove.foldl (fun acc sid =>
    let skip_count := (getOrCreate ss sid).1.skipped_log_count
    if 0 < skip_count then
      acc ++ "\n" ++ expire_msg ⟨skip_count, sid, expire_time_sec⟩
    else acc) ""
  (expire_note, keys_to_remove.foldl (fun cur sid => eraseKey cur sid) ss)

/-- The gating condition of `_check_expiry`:
`self._next_expire_check_time is None or current_time > self._next_expire_check_time`. -/
def dueForCheck : Option ℚ → ℚ → Bool
  | none, _ => true
  | some t, now => decide (t < now)

/-- `StreamRateLimitFilter._check_expiry`: at most one sweep per
`expire_check_sec`, tracked by `next_expire_check_time`. -/
def checkExpiry (cfg : Config) (st : FilterState) (expire_offset_sec : ℚ)
    (expire_msg : ExpireArgs → String) (now : ℚ) : String × FilterState :=
  if dueForCheck st.next_expire_check_time now then
    let p := clearOldStreams st.streams expire_offset_sec now expire_msg
    (p.1, ⟨some (now + cfg.expire_check_sec), p.2⟩)
  else ("", st)

/-- The verdict of one `filter` call: the returned boolean plus the record
attributes the call wrote (`record.msg`, `record.srl_summary_note`,
`record.srl_expire_note`). -/
structure Verdict where
  allow : Bool
  msg : String
  srl_summary_note : String
  srl_expire_note : String
deriving Repr, DecidableEq

/-- The summary note computed by `prep_to_allow_msg`: set only when
`skip_count > 0`. -/
def prepAllowNote (summary_msg : SummaryArgs → String) (sid : StreamID)
    (period_sec : ℚ) (skip_count : ℤ) : String :=
  if 0 < skip_count then "\n" ++ summary_msg ⟨skip_count, sid, period_sec⟩ else ""

/-- Body of `filter` from line 280 on (after the expiry check and the
absent-identifier fast path): fetch / lazily create the stream, then the
full-reset allow, the burst allow, or the deny (with the expiry-note
override of lines 322-324). -/
def decideOnStream (nec : Option ℚ) (ss0 : Streams) (sid : StreamID)
    (now period_sec : ℚ) (allow_next_n : ℤ) (summary : Bool)
    (summary_msg : SummaryArgs → String) (msg1 srl_expire_note : String) :
    Verdict × FilterState :=
  let fetched := getOrCreate ss0 sid
  let stream := fetched.1
  let ss := fetched.2
  let summary_note := prepAllowNote summary_msg sid period_sec stream.skipped_log_count
  let msg2 := if 0 < stream.skipped_log_count ∧ summary = true then msg1 ++ summary_note else msg1
  if stream.next_valid_time ≤ now then
    (⟨true, msg2, summary_note, srl_expire_note⟩,
      ⟨nec, setKey ss sid ⟨now + period_sec, 0, allow_next_n⟩⟩)
  else if 0 < stream.count_logs_left then
    (⟨true, msg2, summary_note, srl_expire_note⟩,
      ⟨nec, setKey ss sid { stream with count_logs_left := stream.count_logs_left - 1 }⟩)
  else
    let ss2 := setKey ss sid { stream with skipped_log_count := stream.skipped_log_count + 1 }
    if srl_expire_note ≠ "" then
      (⟨true, srl_expire_note, "", srl_expire_note⟩, ⟨nec, ss2⟩)
    else
      (⟨false, msg1, "", srl_expire_note⟩, ⟨nec, ss2⟩)

/-- `StreamRateLimitFilter.filter`, with the wall-clock samples of the call
modelled by a single explicit `now`. -/
def filter (cfg : Config) (st : FilterState) (e : LogEvent) (now : ℚ) :
    Verdict × FilterState :=
  let period_sec := e.period_sec.getD cfg.period_sec
  let allow_next_n := e.allow_next_n.getD cfg.allow_next_n
  let summary := e.summary.getD cfg.summary
  let summary_msg := e.summary_msg.getD cfg.summary_msg
  let expire_offset_sec := e.expire_offset_sec.getD cfg.expire_offset_sec
  let expire_msg := e.expire_msg.getD cfg.expire_msg
  let stream_id := resolveStreamId cfg e
  let swept := checkExpiry cfg st expire_offset_sec expire_msg now
  let msg1 := e.msg ++ swept.1
  if stream_id = none ∧ cfg.filter_undefined = false then
    (⟨true, msg1, "", swept.1⟩, swept.2)
  else
    decideOnStream swept.2.next_expire_check_time swept.2.streams stream_id now
      period_sec allow_next_n summary summary_msg msg1 swept.1

/-- Run `filter` over a list of (record, arrival-time) pairs, collecting the
verdicts. -/
def runFilter (cfg : Config) : FilterState → List (LogEvent × ℚ) → List Verdict × FilterState
  | st, [] => ([], st)
  | st, (e, t) :: rest =>
    let p := filter cfg st e t
    let q := runFilter cfg p.2 rest
    (p.1 :: q.1, q.2)

/-- The argument checks of `StreamRateLimitFilter.__init__` (its four
`assert` statements, in source order), returning the initial state on
success. -/
def srlInit (period_sec : ℚ) (allow_next_n : ℤ) (expire_check_sec : ℚ)
    (stream_id_max_len : Option ℤ) : Except String FilterState :=
  if period_sec < 0 then .error "assert period_sec >= 0"
  else if allow_next_n < 0 then .error "assert allow_next_n >= 0"
  else if expire_check_sec < 0 then .error "assert expire_check_sec >= 0"
  else
    match stream_id_max_len with
    | some n =>
      if n ≤ 0 then .error "assert stream_id_max_len is None or stream_id_max_len > 0"
      else .ok ⟨none, []⟩
    | none => .ok ⟨none, []⟩

/-- The namespace-length check of `StreamsCacheRedis.__init__`. -/
def streamsCacheRedisInit (redisPfx : String) : Except String Unit :=
  if 64 < redisPfx.length then
    .error "redis_prefix string should be shorter than 64 characters."
  else .ok ()

/-- Python rendering of an optional stream ID inside an f-string
(`None` renders as the string "None"). -/
def streamIdStr : StreamID → String
  | none => "None"
  | some s => s

/-- The external shared store (Redis key space restricted to this cache's
keys): each key holds the three numeric fields of a `StreamInfo`. -/
abbrev RedisDB := List (String × StreamInfo)

/-- `StreamsCacheRedis._key`: namespaced key, shortened via a fixed-length
prefix plus a content fingerprint when too long.  The MD5 hex digest is an
opaque string function here. -/
def redisKey (redisPfx : String) (md5hex : String → String) (k : StreamID) : String :=
  let full_key := redisPfx ++ ":streams:" ++ streamIdStr k
  if 192 < full_key.length ∧ k ≠ none then
    redisPfx ++ ":streams:" ++ (streamIdStr k).take 32 ++ "..." ++
      "(" ++ md5hex (streamIdStr k) ++ ")"
  else full_key

/-- `StreamsCacheRedis.__getitem__`: get-or-create; on a read miss the fresh
default `StreamInfo()` is written to the external store before returning. -/
def redisGetItem (redisPfx : String) (md5hex : String → String) (db : RedisDB)
    (k : StreamID) : StreamInfo × RedisDB :=
  let rkey := redisKey redisPfx md5hex k
  match findKey db rkey with
  | none => (StreamInfo.init, setKey db rkey StreamInfo.init)
  | some si => (si, db)

/-! Helper lemmas about the association-list store operations. -/

theorem findKey_set_self {κ : Type} [DecidableEq κ] (ss : List (κ × StreamInfo))
    (k : κ) (v : StreamInfo) : findKey (setKey ss k v) k = some v := by
  induction ss with
  | nil => simp [setKey, findKey]
  | cons a rest ih =>
    obtain ⟨ak, av⟩ := a
    by_cases h : ak = k
    · simp [setKey, findKey, h]
    · simp [setKey, findKey, h, ih]

theorem findKey_set_ne {κ : Type} [DecidableEq κ] (ss : List (κ × StreamInfo))
    (k k' : κ) (v : StreamInfo) (h : k' ≠ k) :
    findKey (setKey ss k v) k' = findKey ss k' := by
  have h' : ¬ k = k' := fun hh => h hh.symm
  induction ss with
  | nil => simp [setKey, findKey, h']
  | cons a rest ih =>
    obtain ⟨ak, av⟩ := a
    by_cases hk : ak = k
    · subst hk
      simp [setKey, findKey, h']
    · simp [setKey, findKey, hk, ih]

theorem findKey_append_some {κ : Type} [DecidableEq κ] (ss l : List (κ × StreamInfo))
    (k : κ) (v : StreamInfo) (h : findKey ss k = some v) :
    findKey (ss ++ l) k = some v := by
  induction ss with
  | nil => simp [findKey] at h
  | cons a rest ih =>
    obtain ⟨ak, av⟩ := a
    by_cases hk : ak = k
    · simp_all [findKey]
    · simp_all [findKey]

theorem findKey_append_self {κ : Type} [DecidableEq κ] (ss : List (κ × StreamInfo))
    (k : κ) (v : StreamInfo) (h : findKey ss k = none) :
    findKey (ss ++ [(k, v)]) k = some v := by
  induction ss with
  | nil => simp [findKey]
  | cons a rest ih =>
    obtain ⟨ak, av⟩ := a
    by_cases hk : ak = k
    · simp [findKey, hk] at h
    · simp_all [findKey]

theorem findKey_eq_none_iff {κ : Type} [DecidableEq κ] (ss : List (κ × StreamInfo))
    (k : κ) : findKey ss k = none ↔ k ∉ keysOf ss := by
  induction ss with
  | nil => simp [findKey, keysOf]
  | cons a rest ih =>
    obtain ⟨ak, av⟩ := a
    by_cases hk : ak = k
    · simp [findKey, keysOf, hk]
    · simp [findKey, keysOf, hk, ih, Ne.symm hk]

theorem mem_of_findKey_some {κ : Type} [DecidableEq κ] {ss : List (κ × StreamInfo)}
    {k : κ} {v : StreamInfo} (h : findKey ss k = some v) : (k, v) ∈ ss := by
  induction ss with
  | nil => simp [findKey] at h
  | cons a rest ih =>
    obtain ⟨ak, av⟩ := a
    by_cases hk : ak = k
    · subst hk
      simp [findKey] at h
      simp [h]
    · simp [findKey, hk] at h
      simp [ih h]

theorem nodup_key_inj {κ : Type} {ss : List (κ × StreamInfo)}
    (hnd : NodupKeys ss) {p q : κ × StreamInfo} (hp : p ∈ ss) (hq : q ∈ ss)
    (hk : p.1 = q.1) : p = q := by
  induction ss with
  | nil => simp at hp
  | cons a rest ih =>
    simp only [NodupKeys, keysOf, List.map_cons, List.nodup_cons] at hnd
    rcases List.mem_cons.mp hp with hp1 | hp1 <;>
      rcases List.mem_cons.mp hq with hq1 | hq1
    · rw [hp1, hq1]
    · subst hp1
      exact absurd (List.mem_map.mpr ⟨q, hq1, hk.symm⟩) hnd.1
    · subst hq1
      exact absurd (List.mem_map.mpr ⟨p, hp1, hk⟩) hnd.1
    · exact ih hnd.2 hp1 hq1

theorem findKey_of_mem_nodup {κ : Type} [DecidableEq κ] {ss : List (κ × StreamInfo)}
    (hnd : NodupKeys ss) {k : κ} {v : StreamInfo} (h : (k, v) ∈ ss) :
    findKey ss k = some v := by
  cases hfind : findKey ss k with
  | none =>
    exact absurd (List.mem_map.mpr ⟨(k, v), h, rfl⟩) ((findKey_eq_none_iff ss k).mp hfind)
  | some w =>
    have hw := mem_of_findKey_some hfind
    have := nodup_key_inj hnd hw h (rfl : ((k, w) : κ × StreamInfo).1 = (k, v).1)
    simp at this
    rw [this]

theorem getOrCreate_found {κ : Type} [DecidableEq κ] {ss : List (κ × StreamInfo)}
    {k : κ} {v : StreamInfo} (h : findKey ss k = some v) :
    getOrCreate ss k = (v, ss) := by
  simp [getOrCreate, h]

theorem getOrCreate_missing {κ : Type} [DecidableEq κ] {ss : List (κ × StreamInfo)}
    {k : κ} (h : findKey ss k = none) :
    getOrCreate ss k = (StreamInfo.init, ss ++ [(k, StreamInfo.init)]) := by
  simp [getOrCreate, h]

theorem mem_keysOf_setKey {κ : Type} [DecidableEq κ] (ss : List (κ × StreamInfo))
    (k x : κ) (v : StreamInfo) :
    x ∈ keysOf (setKey ss k v) ↔ x ∈ keysOf ss ∨ x = k := by
  induction ss with
  | nil => simp [setKey, keysOf, eq_comm]
  | cons a rest ih =>
    obtain ⟨ak, av⟩ := a
    by_cases hk : ak = k
    · subst hk
      have hset : setKey ((ak, av) :: rest) ak v = (ak, v) :: rest := by
        simp [setKey]
      rw [hset]
      simp only [keysOf, List.map_cons, List.mem_cons]
      tauto
    · have hset : setKey ((ak, av) :: rest) k v = (ak, av) :: setKey rest k v := by
        simp [setKey, hk]
      rw [hset]
      simp only [keysOf, List.map_cons, List.mem_cons] at ih ⊢
      rw [ih]
      tauto

theorem nodupKeys_setKey {κ : Type} [DecidableEq κ] (ss : List (κ × StreamInfo))
    (k : κ) (v : StreamInfo) (hnd : NodupKeys ss) : NodupKeys (setKey ss k v) := by
  induction ss with
  | nil => simp [setKey, NodupKeys, keysOf]
  | cons a rest ih =>
    obtain ⟨ak, av⟩ := a
    simp only [NodupKeys, keysOf, List.map_cons, List.nodup_cons] at hnd
    by_cases hk : ak = k
    · subst hk
      simpa [setKey, NodupKeys, keysOf] using hnd
    · have := ih hnd.2
      simp only [setKey, if_neg hk, NodupKeys, keysOf, List.map_cons, List.nodup_cons]
      refine ⟨?_, this⟩
      intro hmem
      rcases (mem_keysOf_setKey rest k ak v).mp hmem with h | h
      · exact hnd.1 h
      · exact hk h

theorem nodupKeys_filter {κ : Type} (ss : List (κ × StreamInfo))
    (p : κ × StreamInfo → Bool) (hnd : NodupKeys ss) : NodupKeys (ss.filter p) :=
  ((List.filter_sublist ss).map Prod.fst).nodup hnd

theorem nodupKeys_append_new {κ : Type} [DecidableEq κ] (ss : List (κ × StreamInfo))
    (k : κ) (v : StreamInfo) (hnd : NodupKeys ss) (h : findKey ss k = none) :
    NodupKeys (ss ++ [(k, v)]) := by
  have hk := (findKey_eq_none_iff ss k).mp h
  simp only [keysOf] at hk
  simp only [NodupKeys, keysOf, List.map_append, List.map_cons, List.map_nil] at hnd ⊢
  rw [List.nodup_append]
  refine ⟨hnd, List.nodup_singleton k, ?_⟩
  intro x hx hmem
  rw [List.mem_singleton] at hmem
  subst hmem
  exact hk hx

theorem nodupKeys_getOrCreate {κ : Type} [DecidableEq κ] (ss : List (κ × StreamInfo))
    (k : κ) (hnd : NodupKeys ss) : NodupKeys (getOrCreate ss k).2 := by
  cases h : findKey ss k with
  | none => rw [getOrCreate_missing h]; exact nodupKeys_append_new ss k _ hnd h
  | some v => rw [getOrCreate_found h]; exact hnd

/-! Characterization of the expiry sweep. -/

theorem foldl_eraseKey_eq_filter {κ : Type} [DecidableEq κ] (ks : List κ) :
    ∀ ss : List (κ × StreamInfo),
      ks.foldl (fun cur sid => eraseKey cur sid) ss
        = ss.filter (fun p => decide (¬ p.1 ∈ ks)) := by
  induction ks with
  | nil => intro ss; simp
  | cons k ks ih =>
    intro ss
    rw [List.foldl_cons, ih]
    unfold eraseKey
    rw [List.filter_filter]
    apply List.filter_congr
    intro p _
    by_cases h1 : p.1 = k <;> by_cases h2 : p.1 ∈ ks <;> simp [h1, h2]

/-- Concatenation of note fragments (the repeated `expire_note += msg` of the
source, viewed as a list of per-stream fragments). -/
def concatNotes (l : List String) : String := l.foldr (fun a b => a ++ b) ""

theorem foldl_note_eq_concat {α : Type} (f : α → String) (q : α → Prop)
    [DecidablePred q] (l : List α) :
    ∀ acc : String,
      l.foldl (fun a x => if q x then a ++ f x else a) acc
        = acc ++ concatNotes ((l.filter (fun x => decide (q x))).map f) := by
  induction l with
  | nil => intro acc; simp [concatNotes]
  | cons x l ih =>
    intro acc
    rw [List.foldl_cons]
    by_cases h : q x
    · rw [if_pos h, ih, List.filter_cons, if_pos (by simpa using h)]
      rw [List.map_cons]
      show (acc ++ f x) ++ concatNotes _ = acc ++ (f x ++ concatNotes _)
      rw [String.append_assoc]
    · rw [if_neg h, ih, List.filter_cons, if_neg (by simpa using h)]

theorem foldl_keys_read {κ : Type} [DecidableEq κ] (ss : List (κ × StreamInfo))
    (g : String → κ → StreamInfo → String) (l : List (κ × StreamInfo))
    (hl : ∀ p ∈ l, findKey ss p.1 = some p.2) :
    ∀ acc : String,
      (keysOf l).foldl (fun acc sid => g acc sid (getOrCreate ss sid).1) acc
        = l.foldl (fun acc p => g acc p.1 p.2) acc := by
  induction l with
  | nil => intro acc; simp [keysOf]
  | cons p l ih =>
    intro acc
    have hp := hl p (List.mem_cons_self p l)
    simp only [keysOf, List.map_cons, List.foldl_cons]
    rw [getOrCreate_found hp]
    exact ih (fun p' hp' => hl p' (List.mem_cons_of_mem p hp')) _

/-- The predicate selecting the streams the sweep evicts. -/
def expiredAt (expire_time_sec now : ℚ) (p : StreamID × StreamInfo) : Bool :=
  decide (p.2.next_valid_time + expire_time_sec < now)

theorem clearOldStreams_streams_eq (ss : Streams) (off now : ℚ)
    (m : ExpireArgs → String) (hnd : NodupKeys ss) :
    (clearOldStreams ss off now m).2 = ss.filter (fun p => !expiredAt off now p) := by
  show (keysOf (ss.filter (expiredAt off now))).foldl (fun cur sid => eraseKey cur sid) ss = _
  rw [foldl_eraseKey_eq_filter]
  apply List.filter_congr
  intro p hp
  by_cases hexp : expiredAt off now p = true
  · have hmem : p.1 ∈ keysOf (ss.filter (expiredAt off now)) :=
      List.mem_map.mpr ⟨p, List.mem_filter.mpr ⟨hp, hexp⟩, rfl⟩
    simp [hmem, hexp]
  · have hmem : ¬ p.1 ∈ keysOf (ss.filter (expiredAt off now)) := by
      intro hmem
      rcases List.mem_map.mp hmem with ⟨q, hq, hq1⟩
      have hqss := List.mem_filter.mp hq
      have := nodup_key_inj hnd hp hqss.1 hq1.symm
      rw [this] at hexp
      exact hexp hqss.2
    simp [hmem, hexp]

theorem clearOldStreams_note_eq (ss : Streams) (off now : ℚ)
    (m : ExpireArgs → String) (hnd : NodupKeys ss) :
    (clearOldStreams ss off now m).1
      = concatNotes
          (((ss.filter (expiredAt off now)).filter
              (fun p => decide (0 < p.2.skipped_log_count))).map
            (fun p => "\n" ++ m ⟨p.2.skipped_log_count, p.1, off⟩)) := by
  show (keysOf (ss.filter (expiredAt off now))).foldl (fun acc sid =>
      if 0 < (getOrCreate ss sid).1.skipped_log_count then
        acc ++ "\n" ++ m ⟨(getOrCreate ss sid).1.skipped_log_count, sid, off⟩
      else acc) "" = _
  have hread : ∀ p ∈ ss.filter (expiredAt off now), findKey ss p.1 = some p.2 := by
    intro p hp
    exact findKey_of_mem_nodup hnd (List.mem_filter.mp hp).1
  rw [foldl_keys_read ss
      (fun acc sid v => if 0 < v.skipped_log_count then acc ++ "\n" ++ m ⟨v.skipped_log_count, sid, off⟩ else acc)
      (ss.filter (expiredAt off now)) hread ""]
  have := foldl_note_eq_concat
      (fun p : StreamID × StreamInfo => "\n" ++ m ⟨p.2.skipped_log_count, p.1, off⟩)
      (fun p : StreamID × StreamInfo => 0 < p.2.skipped_log_count)
      (ss.filter (expiredAt off now)) ""
  have hfun : (fun (acc : String) (p : StreamID × StreamInfo) =>
        if 0 < p.2.skipped_log_count then
          acc ++ "\n" ++ m ⟨p.2.skipped_log_count, p.1, off⟩
        else acc)
      = (fun (acc : String) (p : StreamID × StreamInfo) =>
        if 0 < p.2.skipped_log_count then
          acc ++ ("\n" ++ m ⟨p.2.skipped_log_count, p.1, off⟩)
        else acc) := by
    funext acc p
    by_cases h : 0 < p.2.skipped_log_count
    · rw [if_pos h, if_pos h, String.append_assoc]
    · rw [if_neg h, if_neg h]
  rw [hfun, this, String.empty_append]

theorem findKey_filter_pos {κ : Type} [DecidableEq κ] (ss : List (κ × StreamInfo))
    (p : κ × StreamInfo → Bool) (k : κ)
    (h : ∀ w, findKey ss k = some w → p (k, w) = true) :
    findKey (ss.filter p) k = findKey ss k := by
  induction ss with
  | nil => simp
  | cons a rest ih =>
    obtain ⟨ak, av⟩ := a
    by_cases hk : ak = k
    · subst hk
      have hp := h av (by simp [findKey])
      rw [List.filter_cons, if_pos hp]
      simp [findKey]
    · rw [List.filter_cons]
      by_cases hpa : p (ak, av) = true
      · rw [if_pos hpa]
        simp only [findKey, if_neg hk]
        exact ih (by simpa [findKey, hk] using h)
      · rw [if_neg hpa]
        simp only [findKey, if_neg hk]
        exact ih (by simpa [findKey, hk] using h)

theorem findKey_clearOld_kept (ss : Streams) (off now : ℚ) (m : ExpireArgs → String)
    (hnd : NodupKeys ss) (sid : StreamID) (v : StreamInfo)
    (hfind : findKey ss sid = some v) (hkeep : ¬ (v.next_valid_time + off < now)) :
    findKey (clearOldStreams ss off now m).2 sid = some v := by
  rw [clearOldStreams_streams_eq ss off now m hnd]
  rw [findKey_filter_pos]
  · exact hfind
  · intro w hw
    rw [hfind] at hw
    cases hw
    simp [expiredAt, hkeep]

theorem findKey_clearOld_none (ss : Streams) (off now : ℚ) (m : ExpireArgs → String)
    (sid : StreamID) (hfind : findKey ss sid = none) :
    findKey (clearOldStreams ss off now m).2 sid = none := by
  show findKey ((keysOf (ss.filter (expiredAt off now))).foldl
    (fun cur sid => eraseKey cur sid) ss) sid = none
  rw [foldl_eraseKey_eq_filter]
  rw [findKey_eq_none_iff] at hfind ⊢
  intro hmem
  apply hfind
  simp only [keysOf] at hmem ⊢
  rcases List.mem_map.mp hmem with ⟨q, hq, hq1⟩
  exact List.mem_map.mpr ⟨q, List.mem_of_mem_filter hq, hq1⟩

theorem nodupKeys_clearOld (ss : Streams) (off now : ℚ) (m : ExpireArgs → String)
    (hnd : NodupKeys ss) : NodupKeys (clearOldStreams ss off now m).2 := by
  show NodupKeys ((keysOf (ss.filter (expiredAt off now))).foldl
    (fun cur sid => eraseKey cur sid) ss)
  rw [foldl_eraseKey_eq_filter]
  exact nodupKeys_filter ss _ hnd

/-! Lemmas about the gated expiry check. -/

theorem checkExpiry_not_due (cfg : Config) (st : FilterState) (off : ℚ)
    (m : ExpireArgs → String) (now c : ℚ)
    (hc : st.next_expire_check_time = some c) (hle : now ≤ c) :
    checkExpiry cfg st off m now = ("", st) := by
  unfold checkExpiry
  rw [hc]
  rw [if_neg]
  simp [dueForCheck, not_lt.mpr hle]

theorem checkExpiry_due (cfg : Config) (st : FilterState) (off : ℚ)
    (m : ExpireArgs → String) (now : ℚ)
    (h : dueForCheck st.next_expire_check_time now = true) :
    checkExpiry cfg st off m now =
      ((clearOldStreams st.streams off now m).1,
        ⟨some (now + cfg.expire_check_sec), (clearOldStreams st.streams off now m).2⟩) := by
  unfold checkExpiry
  rw [if_pos h]

/-! Lemmas unfolding one `filter` call. -/

theorem resolveStreamId_explicit (cfg : Config) (e : LogEvent) (s : String)
    (hs : e.stream_id = some (some s)) (hmax : cfg.stream_id_max_len = none) :
    resolveStreamId cfg e = some s := by
  simp [resolveStreamId, hs, hmax, pySlice0]

theorem filter_eq_fastpath (cfg : Config) (st : FilterState) (e : LogEvent) (now : ℚ)
    (h : resolveStreamId cfg e = none) (hf : cfg.filter_undefined = false) :
    filter cfg st e now =
      (⟨true,
        e.msg ++ (checkExpiry cfg st (e.expire_offset_sec.getD cfg.expire_offset_sec)
          (e.expire_msg.getD cfg.expire_msg) now).1,
        "",
        (checkExpiry cfg st (e.expire_offset_sec.getD cfg.expire_offset_sec)
          (e.expire_msg.getD cfg.expire_msg) now).1⟩,
       (checkExpiry cfg st (e.expire_offset_sec.getD cfg.expire_offset_sec)
          (e.expire_msg.getD cfg.expire_msg) now).2) := by
  unfold filter
  rw [h, hf]
  simp

theorem filter_eq_decideOnStream (cfg : Config) (st : FilterState) (e : LogEvent)
    (now : ℚ) (sid : StreamID) (h : resolveStreamId cfg e = sid) (hne : sid ≠ none) :
    filter cfg st e now =
      decideOnStream
        (checkExpiry cfg st (e.expire_offset_sec.getD cfg.expire_offset_sec)
          (e.expire_msg.getD cfg.expire_msg) now).2.next_expire_check_time
        (checkExpiry cfg st (e.expire_offset_sec.getD cfg.expire_offset_sec)
          (e.expire_msg.getD cfg.expire_msg) now).2.streams
        sid now (e.period_sec.getD cfg.period_sec) (e.allow_next_n.getD cfg.allow_next_n)
        (e.summary.getD cfg.summary) (e.summary_msg.getD cfg.summary_msg)
        (e.msg ++ (checkExpiry cfg st (e.expire_offset_sec.getD cfg.expire_offset_sec)
          (e.expire_msg.getD cfg.expire_msg) now).1)
        (checkExpiry cfg st (e.expire_offset_sec.getD cfg.expire_offset_sec)
          (e.expire_msg.getD cfg.expire_msg) now).1 := by
  unfold filter
  rw [h]
  rw [if_neg]
  simp [hne]

/-! Case analysis of the decision body. -/

theorem decideOnStream_reset (nec : Option ℚ) (ss0 : Streams) (sid : StreamID)
    (now period : ℚ) (n : ℤ) (summ : Bool) (sm : SummaryArgs → String)
    (msg1 note : String) (info : StreamInfo)
    (hfind : findKey ss0 sid = some info) (helig : info.next_valid_time ≤ now) :
    decideOnStream nec ss0 sid now period n summ sm msg1 note =
      (⟨true,
        (if 0 < info.skipped_log_count ∧ summ = true then
          msg1 ++ prepAllowNote sm sid period info.skipped_log_count else msg1),
        prepAllowNote sm sid period info.skipped_log_count, note⟩,
       ⟨nec, setKey ss0 sid ⟨now + period, 0, n⟩⟩) := by
  simp only [decideOnStream, getOrCreate_found hfind]
  rw [if_pos helig]

theorem decideOnStream_fresh (nec : Option ℚ) (ss0 : Streams) (sid : StreamID)
    (now period : ℚ) (n : ℤ) (summ : Bool) (sm : SummaryArgs → String)
    (msg1 note : String) (hfind : findKey ss0 sid = none) (hnow : 0 ≤ now) :
    decideOnStream nec ss0 sid now period n summ sm msg1 note =
      (⟨true, msg1, "", note⟩,
       ⟨nec, setKey (ss0 ++ [(sid, StreamInfo.init)]) sid ⟨now + period, 0, n⟩⟩) := by
  simp only [decideOnStream, getOrCreate_missing hfind]
  rw [if_pos (show StreamInfo.init.next_valid_time ≤ now from hnow)]
  simp [prepAllowNote, StreamInfo.init]

theorem decideOnStream_burst (nec : Option ℚ) (ss0 : Streams) (sid : StreamID)
    (now period : ℚ) (n : ℤ) (summ : Bool) (sm : SummaryArgs → String)
    (msg1 note : String) (info : StreamInfo)
    (hfind : findKey ss0 sid = some info) (hlate : ¬ info.next_valid_time ≤ now)
    (hburst : 0 < info.count_logs_left) :
    decideOnStream nec ss0 sid now period n summ sm msg1 note =
      (⟨true,
        (if 0 < info.skipped_log_count ∧ summ = true then
          msg1 ++ prepAllowNote sm sid period info.skipped_log_count else msg1),
        prepAllowNote sm sid period info.skipped_log_count, note⟩,
       ⟨nec, setKey ss0 sid { info with count_logs_left := info.count_logs_left - 1 }⟩) := by
  simp only [decideOnStream, getOrCreate_found hfind]
  rw [if_neg hlate, if_pos hburst]

theorem decideOnStream_deny (nec : Option ℚ) (ss0 : Streams) (sid : StreamID)
    (now period : ℚ) (n : ℤ) (summ : Bool) (sm : SummaryArgs → String)
    (msg1 note : String) (info : StreamInfo)
    (hfind : findKey ss0 sid = some info) (hlate : ¬ info.next_valid_time ≤ now)
    (hnoburst : ¬ 0 < info.count_logs_left) :
    decideOnStream nec ss0 sid now period n summ sm msg1 note =
      (if note ≠ "" then (⟨true, note, "", note⟩ : Verdict) else ⟨false, msg1, "", note⟩,
       ⟨nec, setKey ss0 sid { info with skipped_log_count := info.skipped_log_count + 1 }⟩) := by
  simp only [decideOnStream, getOrCreate_found hfind]
  rw [if_neg hlate, if_neg hnoburst]
  by_cases h : note = ""
  · rw [if_neg (by simp [h]), if_neg (by simp [h])]
  · rw [if_pos (by simp [h]), if_pos (by simp [h])]

theorem filter_nec (cfg : Config) (st : FilterState) (e : LogEvent) (now : ℚ) :
    (filter cfg st e now).2.next_expire_check_time
      = (checkExpiry cfg st (e.expire_offset_sec.getD cfg.expire_offset_sec)
          (e.expire_msg.getD cfg.expire_msg) now).2.next_expire_check_time := by
  simp only [filter]
  split
  · rfl
  · simp only [decideOnStream]
    repeat' split
    all_goals rfl

theorem mem_clearOld (ss : Streams) (off now : ℚ) (m : ExpireArgs → String)
    (p : StreamID × StreamInfo) (hp : p ∈ (clearOldStreams ss off now m).2) :
    p ∈ ss := by
  have hp' : p ∈ (keysOf (ss.filter (expiredAt off now))).foldl
      (fun cur sid => eraseKey cur sid) ss := hp
  rw [foldl_eraseKey_eq_filter] at hp'
  exact List.mem_of_mem_filter hp'

theorem checkExpiry_streams_subset (cfg : Config) (st : FilterState) (off : ℚ)
    (m : ExpireArgs → String) (now : ℚ) (p : StreamID × StreamInfo)
    (hp : p ∈ (checkExpiry cfg st off m now).2.streams) : p ∈ st.streams := by
  revert hp
  simp only [checkExpiry]
  split
  · exact fun hp => mem_clearOld st.streams off now m p hp
  · exact fun hp => hp

theorem nodupKeys_checkExpiry (cfg : Config) (st : FilterState) (off : ℚ)
    (m : ExpireArgs → String) (now : ℚ) (hnd : NodupKeys st.streams) :
    NodupKeys (checkExpiry cfg st off m now).2.streams := by
  simp only [checkExpiry]
  split
  · exact nodupKeys_clearOld st.streams off now m hnd
  · exact hnd

/-! Concrete fixtures used by the scenario parts of the claims. -/

/-- The summary template of the summary-accounting scenario
("+\x7bnumskip\x7d skipped"). -/
def skipTemplate : SummaryArgs → String := fun a => "+" ++ toString a.numskip ++ " skipped"

/-- A concrete expiry-note template used by the concrete states below. -/
def expTemplate : ExpireArgs → String := fun a => "expired:" ++ toString a.numskip

/-- A configuration with the given period, burst allowance and summary flag,
content-independent stream IDs, and the source's default expiry settings
(check every 60 s, offset 900 s, no ID length cap). -/
def mkCfg (p : ℚ) (n : ℤ) (summ : Bool) : Config :=
  ⟨p, n, .NONE, false, summ, skipTemplate, 60, 900, expTemplate, none⟩

/-- A log record carrying a message and an explicit stream ID, with no
per-record overrides. -/
def mkEvent (s m : String) : LogEvent :=
  ⟨m, "f.py", 1, some (some s), none, none, none, none, none, none⟩

/-- The state of a freshly constructed filter. -/
def initState : FilterState := ⟨none, []⟩

/-- C3: for a stream with period P and burst allowance 0, an eligible allow
at time T denies every event on the stream strictly before T+P and allows at
any time from T+P on (boundary inclusive); and the concrete scenario
period=1, burst=0, no summary with events at t=0, 0.2, 0.5, 1, 1.05 yields
verdicts [allow, deny, deny, allow, deny]. -/
theorem c3_period_boundary (cfg : Config) (st : FilterState) (e e' : LogEvent)
    (s : String) (T : ℚ)
    (hnd : NodupKeys st.streams)
    (hN : cfg.allow_next_n = 0) (hmax : cfg.stream_id_max_len = none)
    (hP : 0 ≤ cfg.period_sec) (hOff : 0 ≤ cfg.expire_offset_sec) (hT : 0 ≤ T)
    (he : e.stream_id = some (some s)) (heP : e.period_sec = none)
    (heN : e.allow_next_n = none) (heO : e.expire_offset_sec = none)
    (he' : e'.stream_id = some (some s)) (heP' : e'.period_sec = none)
    (heO' : e'.expire_offset_sec = none)
    (helig : ((getOrCreate (checkExpiry cfg st cfg.expire_offset_sec
        (e.expire_msg.getD cfg.expire_msg) T).2.streams (some s)).1).next_valid_time ≤ T) :
    (filter cfg st e T).1.allow = true ∧
    findKey (filter cfg st e T).2.streams (some s) = some ⟨T + cfg.period_sec, 0, 0⟩ ∧
    (∀ T', T' < T + cfg.period_sec →
      (checkExpiry cfg (filter cfg st e T).2 cfg.expire_offset_sec
        (e'.expire_msg.getD cfg.expire_msg) T').1 = "" →
      (filter cfg (filter cfg st e T).2 e' T').1.allow = false) ∧
    (∀ T'', T + cfg.period_sec ≤ T'' →
      (filter cfg (filter cfg st e T).2 e' T'').1.allow = true) ∧
    ((runFilter (mkCfg 1 0 false) initState
        [(mkEvent "s" "m", 0), (mkEvent "s" "m", 1/5), (mkEvent "s" "m", 1/2),
         (mkEvent "s" "m", 1), (mkEvent "s" "m", 21/20)]).1.map Verdict.allow
      = [true, false, false, true, false]) := by
  have hres : resolveStreamId cfg e = some s := resolveStreamId_explicit cfg e s he hmax
  have hres' : resolveStreamId cfg e' = some s := resolveStreamId_explicit cfg e' s he' hmax
  have hfe := filter_eq_decideOnStream cfg st e T (some s) hres (by simp)
  rw [heO] at hfe
  simp only [Option.getD_none] at hfe
  -- the state after the first call
  have hmain : (filter cfg st e T).1.allow = true ∧
      (filter cfg st e T).2.next_expire_check_time
        = (checkExpiry cfg st cfg.expire_offset_sec (e.expire_msg.getD cfg.expire_msg) T).2.next_expire_check_time ∧
      ∃ ss1 : Streams, NodupKeys ss1 ∧
        (filter cfg st e T).2.streams = setKey ss1 (some s) ⟨T + cfg.period_sec, 0, 0⟩ := by
    cases hfind : findKey (checkExpiry cfg st cfg.expire_offset_sec
        (e.expire_msg.getD cfg.expire_msg) T).2.streams (some s) with
    | some info =>
      have helig2 : info.next_valid_time ≤ T := by
        rw [getOrCreate_found hfind] at helig
        exact helig
      rw [hfe, decideOnStream_reset _ _ _ _ _ _ _ _ _ _ info hfind helig2]
      refine ⟨rfl, rfl, ?_⟩
      refine ⟨(checkExpiry cfg st cfg.expire_offset_sec (e.expire_msg.getD cfg.expire_msg) T).2.streams,
        nodupKeys_checkExpiry _ _ _ _ _ hnd, ?_⟩
      rw [heP, heN, hN]
      simp
    | none =>
      rw [hfe, decideOnStream_fresh _ _ _ _ _ _ _ _ _ _ hfind hT]
      refine ⟨rfl, rfl, ?_⟩
      refine ⟨(checkExpiry cfg st cfg.expire_offset_sec (e.expire_msg.getD cfg.expire_msg) T).2.streams
          ++ [(some s, StreamInfo.init)],
        nodupKeys_append_new _ _ _ (nodupKeys_checkExpiry _ _ _ _ _ hnd) hfind, ?_⟩
      rw [heP, heN, hN]
      simp
  obtain ⟨hallow, hnec, ss1, hnd1, hstreams⟩ := hmain
  have hfind2 : findKey (filter cfg st e T).2.streams (some s)
      = some ⟨T + cfg.period_sec, 0, 0⟩ := by
    rw [hstreams]
    exact findKey_set_self ss1 (some s) _
  have hnd2 : NodupKeys (filter cfg st e T).2.streams := by
    rw [hstreams]
    exact nodupKeys_setKey ss1 (some s) _ hnd1
  refine ⟨hallow, hfind2, ?_, ?_, by with_unfolding_all decide⟩
  · -- deny before the boundary
    intro T' hT' hnote
    have hfe' := filter_eq_decideOnStream cfg (filter cfg st e T).2 e' T' (some s) hres' (by simp)
    rw [heO'] at hfe'
    simp only [Option.getD_none] at hfe'
    have hkept : findKey (checkExpiry cfg (filter cfg st e T).2 cfg.expire_offset_sec
        (e'.expire_msg.getD cfg.expire_msg) T').2.streams (some s)
        = some ⟨T + cfg.period_sec, 0, 0⟩ := by
      by_cases hdue : dueForCheck (filter cfg st e T).2.next_expire_check_time T' = true
      · -- a sweep runs but does not evict the active stream
        rw [checkExpiry_due cfg (filter cfg st e T).2 cfg.expire_offset_sec
          (e'.expire_msg.getD cfg.expire_msg) T' hdue]
        exact findKey_clearOld_kept (filter cfg st e T).2.streams cfg.expire_offset_sec T'
          (e'.expire_msg.getD cfg.expire_msg) hnd2 (some s) ⟨T + cfg.period_sec, 0, 0⟩ hfind2
          (by simp only [not_lt]
              show T' ≤ T + cfg.period_sec + cfg.expire_offset_sec
              linarith)
      · -- no sweep runs
        cases hc : (filter cfg st e T).2.next_expire_check_time with
        | none => rw [hc] at hdue; simp [dueForCheck] at hdue
        | some c =>
          have hle : T' ≤ c := by
            rw [hc] at hdue
            simp only [dueForCheck, decide_eq_true_eq, not_lt] at hdue
            exact hdue
          rw [checkExpiry_not_due cfg (filter cfg st e T).2 cfg.expire_offset_sec
            (e'.expire_msg.getD cfg.expire_msg) T' c hc hle]
          exact hfind2
    rw [hfe', decideOnStream_deny _ _ _ _ _ _ _ _ _ _ _ hkept
      (by simp only [not_le]; show T' < T + cfg.period_sec; exact hT')
      (by simp)]
    rw [hnote]
    simp
  · -- allow on or after the boundary
    intro T'' hT''
    have hfe'' := filter_eq_decideOnStream cfg (filter cfg st e T).2 e' T'' (some s) hres' (by simp)
    rw [heO'] at hfe''
    simp only [Option.getD_none] at hfe''
    cases hfind'' : findKey (checkExpiry cfg (filter cfg st e T).2 cfg.expire_offset_sec
        (e'.expire_msg.getD cfg.expire_msg) T'').2.streams (some s) with
    | some w =>
      have hw : w = ⟨T + cfg.period_sec, 0, 0⟩ := by
        have hmem := mem_of_findKey_some hfind''
        have hmem2 := checkExpiry_streams_subset cfg _ _ _ T'' _ hmem
        have hfw := findKey_of_mem_nodup hnd2 hmem2
        rw [hfind2] at hfw
        exact (Option.some_injective _ hfw).symm
      have helig'' : w.next_valid_time ≤ T'' := by
        rw [hw]
        exact hT''
      rw [hfe'', decideOnStream_reset _ _ _ _ _ _ _ _ _ _ w hfind'' helig'']
    | none =>
      have hT0 : (0:ℚ) ≤ T'' := by linarith
      rw [hfe'', decideOnStream_fresh _ _ _ _ _ _ _ _ _ _ hfind'' hT0]

/-- Witness for C3: the first event of a fresh filter at t=0 is an eligible
allow and the timer is reset to the period. -/
theorem c3_period_boundary_witness :
    (filter (mkCfg 1 0 false) initState (mkEvent "s" "m") 0).1.allow = true ∧
    findKey (filter (mkCfg 1 0 false) initState (mkEvent "s" "m") 0).2.streams (some "s")
      = some ⟨0 + (mkCfg 1 0 false).period_sec, 0, 0⟩ := by
  have h := c3_period_boundary (mkCfg 1 0 false) initState (mkEvent "s" "m")
    (mkEvent "s" "m") "s" 0
    (by simp [NodupKeys, keysOf, initState]) rfl rfl
    (by with_unfolding_all decide) (by with_unfolding_all decide) le_rfl
    rfl rfl rfl rfl rfl rfl rfl
    (by with_unfolding_all decide)
  exact ⟨h.1, h.2.1⟩

/-- C4: burst allowance: when the stream is not yet eligible but still has
count_logs_left > 0, the event is allowed, one burst unit is consumed and
next_valid_time and the skipped count are untouched; with the burst
exhausted (and no expiry note to surface) the event is denied; and the
concrete scenario period=1, burst=2 with events at t=0, 0.1, 0.2, 0.3
yields [allow, allow, allow, deny]. -/
theorem c4_burst_allowance (cfg : Config) (st : FilterState) (e : LogEvent)
    (s : String) (now : ℚ) (info : StreamInfo)
    (hmax : cfg.stream_id_max_len = none)
    (he : e.stream_id = some (some s)) (heO : e.expire_offset_sec = none)
    (hfind : findKey (checkExpiry cfg st cfg.expire_offset_sec
        (e.expire_msg.getD cfg.expire_msg) now).2.streams (some s) = some info)
    (hlate : now < info.next_valid_time) :
    (0 < info.count_logs_left →
      (filter cfg st e now).1.allow = true ∧
      findKey (filter cfg st e now).2.streams (some s)
        = some ⟨info.next_valid_time, info.skipped_log_count, info.count_logs_left - 1⟩) ∧
    (info.count_logs_left ≤ 0 →
      (checkExpiry cfg st cfg.expire_offset_sec
        (e.expire_msg.getD cfg.expire_msg) now).1 = "" →
      (filter cfg st e now).1.allow = false) ∧
    ((runFilter (mkCfg 1 2 false) initState
        [(mkEvent "s" "m", 0), (mkEvent "s" "m", 1/10), (mkEvent "s" "m", 1/5),
         (mkEvent "s" "m", 3/10)]).1.map Verdict.allow
      = [true, true, true, false]) := by
  have hres : resolveStreamId cfg e = some s := resolveStreamId_explicit cfg e s he hmax
  have hfe := filter_eq_decideOnStream cfg st e now (some s) hres (by simp)
  rw [heO] at hfe
  simp only [Option.getD_none] at hfe
  have hlate' : ¬ info.next_valid_time ≤ now := not_le.mpr hlate
  refine ⟨?_, ?_, by with_unfolding_all decide⟩
  · intro hburst
    rw [hfe, decideOnStream_burst _ _ _ _ _ _ _ _ _ _ info hfind hlate' hburst]
    refine ⟨rfl, ?_⟩
    exact findKey_set_self _ (some s) _
  · intro hexhausted hnote
    rw [hfe, decideOnStream_deny _ _ _ _ _ _ _ _ _ _ info hfind hlate'
      (not_lt.mpr hexhausted)]
    rw [hnote]
    simp

/-- Witness for C4: a stream with next_valid_time 10 and two burst units
left, queried at t=5, is burst-allowed and one unit is consumed. -/
theorem c4_burst_allowance_witness :
    (filter (mkCfg 1 2 false) ⟨some 1000, [(some "s", ⟨10, 0, 2⟩)]⟩
      (mkEvent "s" "m") 5).1.allow = true ∧
    findKey (filter (mkCfg 1 2 false) ⟨some 1000, [(some "s", ⟨10, 0, 2⟩)]⟩
      (mkEvent "s" "m") 5).2.streams (some "s")
      = some ⟨(10:ℚ), (0:ℤ), (2:ℤ) - 1⟩ := by
  have h := c4_burst_allowance (mkCfg 1 2 false) ⟨some 1000, [(some "s", ⟨10, 0, 2⟩)]⟩
    (mkEvent "s" "m") "s" 5 ⟨10, 0, 2⟩ rfl rfl rfl
    (by with_unfolding_all decide) (by with_unfolding_all decide)
  exact h.1 (by with_unfolding_all decide)

/-- C5: summary accounting: a full-reset allow on a stream that suppressed
K > 0 events since its last reset produces the summary note with numskip
exactly K; the note is appended to the emitted message exactly when the
summary option is on; the suppressed count is reset to 0 either way; and
the concrete scenario (template "+\x7bnumskip\x7d skipped", allow at 0,
denies at 0.1, 0.2, 0.3, allow at 1) reports exactly 3. -/
theorem c5_summary_accounting (cfg : Config) (st : FilterState) (e : LogEvent)
    (s : String) (now : ℚ) (info : StreamInfo) (K : ℤ)
    (hmax : cfg.stream_id_max_len = none)
    (he : e.stream_id = some (some s)) (heP : e.period_sec = none)
    (heN : e.allow_next_n = none) (heO : e.expire_offset_sec = none)
    (heS : e.summary = none) (heM : e.summary_msg = none)
    (hfind : findKey (checkExpiry cfg st cfg.expire_offset_sec
        (e.expire_msg.getD cfg.expire_msg) now).2.streams (some s) = some info)
    (helig : info.next_valid_time ≤ now)
    (hK : info.skipped_log_count = K) (hKpos : 0 < K) :
    (filter cfg st e now).1.allow = true ∧
    (filter cfg st e now).1.srl_summary_note
      = "\n" ++ cfg.summary_msg ⟨K, some s, cfg.period_sec⟩ ∧
    (cfg.summary = true →
      (filter cfg st e now).1.msg
        = (e.msg ++ (filter cfg st e now).1.srl_expire_note)
            ++ ("\n" ++ cfg.summary_msg ⟨K, some s, cfg.period_sec⟩)) ∧
    (cfg.summary = false →
      (filter cfg st e now).1.msg = e.msg ++ (filter cfg st e now).1.srl_expire_note) ∧
    findKey (filter cfg st e now).2.streams (some s)
      = some ⟨now + cfg.period_sec, 0, cfg.allow_next_n⟩ ∧
    ((runFilter (mkCfg 1 0 true) initState
        [(mkEvent "s" "m", 0), (mkEvent "s" "m", 1/10), (mkEvent "s" "m", 1/5),
         (mkEvent "s" "m", 3/10), (mkEvent "s" "m", 1)]).1.map Verdict.srl_summary_note
      = ["", "", "", "", "\n+3 skipped"]) := by
  have hres : resolveStreamId cfg e = some s := resolveStreamId_explicit cfg e s he hmax
  have hfe := filter_eq_decideOnStream cfg st e now (some s) hres (by simp)
  rw [heO] at hfe
  simp only [Option.getD_none] at hfe
  rw [hfe, decideOnStream_reset _ _ _ _ _ _ _ _ _ _ info hfind helig]
  rw [heP, heN, heS, heM]
  simp only [Option.getD_none]
  have hnote : prepAllowNote cfg.summary_msg (some s) cfg.period_sec info.skipped_log_count
      = "\n" ++ cfg.summary_msg ⟨K, some s, cfg.period_sec⟩ := by
    rw [prepAllowNote, hK, if_pos hKpos]
  refine ⟨by trivial, hnote, ?_, ?_, ?_, by with_unfolding_all decide⟩
  · intro hsumm
    rw [if_pos ⟨by rw [hK]; exact hKpos, hsumm⟩]
    rw [hnote]
  · intro hsumm
    rw [if_neg]
    intro hcontra
    rw [hsumm] at hcontra
    exact Bool.false_ne_true hcontra.2
  · exact findKey_set_self _ (some s) _

/-- Witness for C5: a stream with 3 suppressed events, eligible at t=5,
reports "+3 skipped" and is reset. -/
theorem c5_summary_accounting_witness :
    (filter (mkCfg 1 0 true) ⟨some 1000, [(some "s", ⟨0, 3, 0⟩)]⟩
      (mkEvent "s" "m") 5).1.allow = true ∧
    (filter (mkCfg 1 0 true) ⟨some 1000, [(some "s", ⟨0, 3, 0⟩)]⟩
      (mkEvent "s" "m") 5).1.srl_summary_note
      = "\n" ++ (mkCfg 1 0 true).summary_msg ⟨3, some "s", (mkCfg 1 0 true).period_sec⟩ := by
  have h := c5_summary_accounting (mkCfg 1 0 true) ⟨some 1000, [(some "s", ⟨0, 3, 0⟩)]⟩
    (mkEvent "s" "m") "s" 5 ⟨0, 3, 0⟩ 3 rfl rfl rfl rfl rfl rfl rfl
    (by with_unfolding_all decide) (by with_unfolding_all decide) rfl
    (by with_unfolding_all decide)
  exact ⟨h.1, h.2.1⟩

/-- C1 (amended): on a deny decision (stream not eligible and no burst
left), suppressed_count is incremented and no summary note is produced; the
sweep note of the call is exposed as the srl_expire_note record attribute;
when that note is empty the filter returns false with the message untouched,
but when the note is non-empty the filter returns TRUE with the record
message replaced by the note, so the note is emitted in place of the denied
event (lines 322-324 of the source). -/
theorem c1_deny_with_expiry_note (cfg : Config) (st : FilterState) (e : LogEvent)
    (s : String) (now : ℚ) (info : StreamInfo)
    (hmax : cfg.stream_id_max_len = none)
    (he : e.stream_id = some (some s)) (heO : e.expire_offset_sec = none)
    (hfind : findKey (checkExpiry cfg st cfg.expire_offset_sec
        (e.expire_msg.getD cfg.expire_msg) now).2.streams (some s) = some info)
    (hlate : now < info.next_valid_time) (hnoburst : info.count_logs_left ≤ 0) :
    findKey (filter cfg st e now).2.streams (some s)
      = some ⟨info.next_valid_time, info.skipped_log_count + 1, info.count_logs_left⟩ ∧
    (filter cfg st e now).1.srl_summary_note = "" ∧
    (filter cfg st e now).1.srl_expire_note
      = (checkExpiry cfg st cfg.expire_offset_sec (e.expire_msg.getD cfg.expire_msg) now).1 ∧
    ((checkExpiry cfg st cfg.expire_offset_sec (e.expire_msg.getD cfg.expire_msg) now).1 = "" →
      (filter cfg st e now).1.allow = false ∧ (filter cfg st e now).1.msg = e.msg) ∧
    ((checkExpiry cfg st cfg.expire_offset_sec (e.expire_msg.getD cfg.expire_msg) now).1 ≠ "" →
      (filter cfg st e now).1.allow = true ∧
      (filter cfg st e now).1.msg
        = (checkExpiry cfg st cfg.expire_offset_sec (e.expire_msg.getD cfg.expire_msg) now).1) := by
  have hres : resolveStreamId cfg e = some s := resolveStreamId_explicit cfg e s he hmax
  have hfe := filter_eq_decideOnStream cfg st e now (some s) hres (by simp)
  rw [heO] at hfe
  simp only [Option.getD_none] at hfe
  rw [hfe, decideOnStream_deny _ _ _ _ _ _ _ _ _ _ info hfind
    (not_le.mpr hlate) (not_lt.mpr hnoburst)]
  refine ⟨findKey_set_self _ (some s) _, ?_, ?_, ?_, ?_⟩
  · by_cases hn : (checkExpiry cfg st cfg.expire_offset_sec
        (e.expire_msg.getD cfg.expire_msg) now).1 = ""
    · rw [if_neg (by simp [hn])]
    · rw [if_pos (by simp [hn])]
  · by_cases hn : (checkExpiry cfg st cfg.expire_offset_sec
        (e.expire_msg.getD cfg.expire_msg) now).1 = ""
    · rw [if_neg (by simp [hn])]
    · rw [if_pos (by simp [hn])]
  · intro hn
    rw [if_neg (by simp [hn])]
    refine ⟨rfl, ?_⟩
    show e.msg ++ (checkExpiry cfg st cfg.expire_offset_sec
      (e.expire_msg.getD cfg.expire_msg) now).1 = e.msg
    rw [hn, String.append_empty]
  · intro hn
    rw [if_pos (by simp [hn])]
    exact ⟨rfl, rfl⟩

/-- Witness for C1 (amended): a quiet deny (no sweep note) returns false
and bumps the suppressed count. -/
theorem c1_deny_with_expiry_note_witness :
    findKey (filter (mkCfg 1 0 true) ⟨some 1000, [(some "s", ⟨2000, 4, 0⟩)]⟩
      (mkEvent "s" "m") 5).2.streams (some "s") = some ⟨2000, 4 + 1, 0⟩ ∧
    (filter (mkCfg 1 0 true) ⟨some 1000, [(some "s", ⟨2000, 4, 0⟩)]⟩
      (mkEvent "s" "m") 5).1.allow = false := by
  have h := c1_deny_with_expiry_note (mkCfg 1 0 true)
    ⟨some 1000, [(some "s", ⟨2000, 4, 0⟩)]⟩ (mkEvent "s" "m") "s" 5 ⟨2000, 4, 0⟩
    rfl rfl rfl
    (by with_unfolding_all decide) (by with_unfolding_all decide)
    (by with_unfolding_all decide)
  exact ⟨h.1, (h.2.2.2.1 (by with_unfolding_all decide)).1⟩

/-- C1 counterexample: a decision in which the stream is not eligible
(1000 < 2000) and has no burst left, but a sweep during the same call
evicted another stream with 5 suppressed events, producing a non-empty
note: suppressed_count is incremented, yet the filter returns TRUE (the
claim says the decision returns allow=false). -/
theorem c1_deny_note_counterexample :
    (1000:ℚ) < 2000 ∧
    (filter (mkCfg 1 0 true) ⟨none, [(some "old", ⟨0, 5, 0⟩), (some "s", ⟨2000, 0, 0⟩)]⟩
      (mkEvent "s" "m") 1000).1.srl_expire_note ≠ "" ∧
    (filter (mkCfg 1 0 true) ⟨none, [(some "old", ⟨0, 5, 0⟩), (some "s", ⟨2000, 0, 0⟩)]⟩
      (mkEvent "s" "m") 1000).1.allow = true ∧
    findKey (filter (mkCfg 1 0 true) ⟨none, [(some "old", ⟨0, 5, 0⟩), (some "s", ⟨2000, 0, 0⟩)]⟩
      (mkEvent "s" "m") 1000).2.streams (some "s") = some ⟨2000, 1, 0⟩ := by
  with_unfolding_all decide

/-- C2 (amended): with filter_undefined disabled, an event resolving to the
absent stream ID is always allowed and the decision itself neither creates
nor modifies any StreamState: the resulting state is exactly the state left
by the expiry check that runs before the fast path, and when no sweep is
due the whole filter state is unchanged and the message untouched. -/
theorem c2_absent_id_fastpath (cfg : Config) (st : FilterState) (e : LogEvent) (now : ℚ)
    (hres : resolveStreamId cfg e = none) (hf : cfg.filter_undefined = false) :
    (filter cfg st e now).1.allow = true ∧
    (filter cfg st e now).2
      = (checkExpiry cfg st (e.expire_offset_sec.getD cfg.expire_offset_sec)
          (e.expire_msg.getD cfg.expire_msg) now).2 ∧
    (∀ c, st.next_expire_check_time = some c → now ≤ c →
      (filter cfg st e now).2 = st ∧ (filter cfg st e now).1.msg = e.msg) := by
  have hfe := filter_eq_fastpath cfg st e now hres hf
  rw [hfe]
  refine ⟨rfl, rfl, ?_⟩
  intro c hc hle
  rw [checkExpiry_not_due cfg st (e.expire_offset_sec.getD cfg.expire_offset_sec)
    (e.expire_msg.getD cfg.expire_msg) now c hc hle]
  refine ⟨rfl, ?_⟩
  show e.msg ++ "" = e.msg
  rw [String.append_empty]

/-- Witness for C2 (amended): with the next expiry check still in the
future, an absent-ID event leaves the state untouched. -/
theorem c2_absent_id_fastpath_witness :
    (filter (mkCfg 1 0 true) ⟨some 7, []⟩
      ⟨"m", "f.py", 1, none, none, none, none, none, none, none⟩ 0).1.allow = true ∧
    (filter (mkCfg 1 0 true) ⟨some 7, []⟩
      ⟨"m", "f.py", 1, none, none, none, none, none, none, none⟩ 0).2
      = (⟨some 7, []⟩ : FilterState) := by
  have h := c2_absent_id_fastpath (mkCfg 1 0 true) ⟨some 7, []⟩
    ⟨"m", "f.py", 1, none, none, none, none, none, none, none⟩ 0 rfl rfl
  exact ⟨h.1, (h.2.2 7 rfl (by norm_num)).1⟩

/-- C2 counterexample: the very first absent-ID event of a fresh filter is
allowed, but it DOES mutate engine state: the expiry-check schedule changes
from none to some 60 (the claim says no engine-owned state changes). -/
theorem c2_absent_id_mutation_counterexample :
    initState.next_expire_check_time = none ∧
    (filter (mkCfg 1 0 true) initState
      ⟨"m", "f.py", 1, none, none, none, none, none, none, none⟩ 0).1.allow = true ∧
    (filter (mkCfg 1 0 true) initState
      ⟨"m", "f.py", 1, none, none, none, none, none, none, none⟩ 0).2.next_expire_check_time
      = some 60 ∧
    (filter (mkCfg 1 0 true) initState
      ⟨"m", "f.py", 1, none, none, none, none, none, none, none⟩ 0).2 ≠ initState := by
  with_unfolding_all decide

theorem setKey_missing {κ : Type} [DecidableEq κ] (ss : List (κ × StreamInfo)) (k : κ)
    (v : StreamInfo) (h : findKey ss k = none) : setKey ss k v = ss ++ [(k, v)] := by
  induction ss with
  | nil => simp [setKey]
  | cons a rest ih =>
    obtain ⟨ak, av⟩ := a
    by_cases hk : ak = k
    · simp [findKey, hk] at h
    · simp only [findKey, if_neg hk] at h
      simp only [setKey, if_neg hk, List.cons_append, List.cons.injEq, true_and]
      exact ih h

/-- C6: the sweep contract: exactly the streams with
next_valid_time + offset < now are removed; the note is the concatenation
of exactly one fragment per removed stream with a positive suppressed
count (passing that count as numskip) and nothing for suppressed counts of
zero; a removed stream is no longer found; and a decision on a stream
absent from the store is always allowed (first-event behaviour). -/
theorem c6_sweep_contract (ss : Streams) (off now : ℚ) (m : ExpireArgs → String)
    (hnd : NodupKeys ss) :
    (clearOldStreams ss off now m).2 = ss.filter (fun p => !expiredAt off now p) ∧
    (clearOldStreams ss off now m).1
      = concatNotes
          (((ss.filter (expiredAt off now)).filter
              (fun p => decide (0 < p.2.skipped_log_count))).map
            (fun p => "\n" ++ m ⟨p.2.skipped_log_count, p.1, off⟩)) ∧
    (∀ sid v, findKey ss sid = some v → v.next_valid_time + off < now →
      findKey (clearOldStreams ss off now m).2 sid = none) ∧
    (∀ (cfg : Config) (st : FilterState) (e : LogEvent) (s : String) (t : ℚ),
      cfg.stream_id_max_len = none → e.stream_id = some (some s) →
      findKey st.streams (some s) = none → 0 ≤ t →
      (filter cfg st e t).1.allow = true) := by
  refine ⟨clearOldStreams_streams_eq ss off now m hnd,
    clearOldStreams_note_eq ss off now m hnd, ?_, ?_⟩
  · intro sid v hfind hexp
    rw [clearOldStreams_streams_eq ss off now m hnd]
    rw [findKey_eq_none_iff]
    intro hmem
    simp only [keysOf] at hmem
    rcases List.mem_map.mp hmem with ⟨q, hq, hq1⟩
    have hqm := List.mem_filter.mp hq
    have hv := mem_of_findKey_some hfind
    have hqv := nodup_key_inj hnd hqm.1 hv (by rw [hq1])
    rw [hqv] at hqm
    simp [expiredAt, hexp] at hqm
  · intro cfg st e s t hmax he hnone ht
    have hres := resolveStreamId_explicit cfg e s he hmax
    have hfe := filter_eq_decideOnStream cfg st e t (some s) hres (by simp)
    have hnone2 : findKey (checkExpiry cfg st (e.expire_offset_sec.getD cfg.expire_offset_sec)
        (e.expire_msg.getD cfg.expire_msg) t).2.streams (some s) = none := by
      by_cases hdue : dueForCheck st.next_expire_check_time t = true
      · rw [checkExpiry_due cfg st (e.expire_offset_sec.getD cfg.expire_offset_sec)
          (e.expire_msg.getD cfg.expire_msg) t hdue]
        exact findKey_clearOld_none st.streams (e.expire_offset_sec.getD cfg.expire_offset_sec)
          t (e.expire_msg.getD cfg.expire_msg) (some s) hnone
      · cases hc : st.next_expire_check_time with
        | none => rw [hc] at hdue; simp [dueForCheck] at hdue
        | some c =>
          have hle : t ≤ c := by
            rw [hc] at hdue
            simp only [dueForCheck, decide_eq_true_eq, not_lt] at hdue
            exact hdue
          rw [checkExpiry_not_due cfg st (e.expire_offset_sec.getD cfg.expire_offset_sec)
            (e.expire_msg.getD cfg.expire_msg) t c hc hle]
          exact hnone
    rw [hfe, decideOnStream_fresh _ _ _ _ _ _ _ _ _ _ hnone2 ht]

/-- Witness for C6: two of three streams are past expiry (one with 2
suppressed events, one with none); the sweep removes exactly those two and
reports only the count 2. -/
theorem c6_sweep_contract_witness :
    (clearOldStreams [(some "a", ⟨0, 2, 0⟩), (some "b", ⟨0, 0, 0⟩), (some "c", ⟨100, 3, 0⟩)]
        10 50 expTemplate).2
      = [(some "c", ⟨100, 3, 0⟩)] ∧
    (clearOldStreams [(some "a", ⟨0, 2, 0⟩), (some "b", ⟨0, 0, 0⟩), (some "c", ⟨100, 3, 0⟩)]
        10 50 expTemplate).1
      = "\nexpired:2" := by
  have h := c6_sweep_contract
    [(some "a", ⟨0, 2, 0⟩), (some "b", ⟨0, 0, 0⟩), (some "c", ⟨100, 3, 0⟩)]
    10 50 expTemplate (by simp [NodupKeys, keysOf])
  refine ⟨?_, ?_⟩
  · rw [h.1]
    with_unfolding_all decide
  · rw [h.2.1]
    with_unfolding_all decide

theorem filter_event_congr (cfg : Config) (st : FilterState) (e1 e2 : LogEvent) (now : ℚ)
    (hid : resolveStreamId cfg e1 = resolveStreamId cfg e2)
    (hmsg : e1.msg = e2.msg) (hp : e1.period_sec = e2.period_sec)
    (hn : e1.allow_next_n = e2.allow_next_n) (hs : e1.summary = e2.summary)
    (hsm : e1.summary_msg = e2.summary_msg) (ho : e1.expire_offset_sec = e2.expire_offset_sec)
    (hm : e1.expire_msg = e2.expire_msg) :
    filter cfg st e1 now = filter cfg st e2 now := by
  unfold filter
  rw [hid, hmsg, hp, hn, hs, hsm, ho, hm]

/-- C7: with an identifier length cap configured, two explicit identifiers
that truncate to the same prefix of the cap length resolve to the same
stream key, so the whole decision (verdict and resulting state) is
identical for both — they share one StreamState and one rate limit. -/
theorem c7_truncation_collision (cfg : Config) (st : FilterState) (e : LogEvent)
    (s1 s2 : String) (n : ℤ) (now : ℚ)
    (hmax : cfg.stream_id_max_len = some n)
    (hpfx : pySlice0 s1 (some n) = pySlice0 s2 (some n)) :
    resolveStreamId cfg { e with stream_id := some (some s1) }
      = resolveStreamId cfg { e with stream_id := some (some s2) } ∧
    filter cfg st { e with stream_id := some (some s1) } now
      = filter cfg st { e with stream_id := some (some s2) } now := by
  have hres : resolveStreamId cfg { e with stream_id := some (some s1) }
      = resolveStreamId cfg { e with stream_id := some (some s2) } := by
    simp [resolveStreamId, hmax, hpfx]
  exact ⟨hres, filter_event_congr cfg st _ _ now hres rfl rfl rfl rfl rfl rfl rfl⟩

/-- Witness for C7: with cap 3, "abcXX" and "abcYY" collide and get the
same decision. -/
theorem c7_truncation_collision_witness :
    filter ⟨1, 0, .NONE, false, true, skipTemplate, 60, 900, expTemplate, some 3⟩
      initState { mkEvent "zz" "m" with stream_id := some (some "abcXX") } 0
      = filter ⟨1, 0, .NONE, false, true, skipTemplate, 60, 900, expTemplate, some 3⟩
      initState { mkEvent "zz" "m" with stream_id := some (some "abcYY") } 0 :=
  (c7_truncation_collision ⟨1, 0, .NONE, false, true, skipTemplate, 60, 900, expTemplate, some 3⟩
    initState (mkEvent "zz" "m") "abcXX" "abcYY" 3 0 rfl (by with_unfolding_all decide)).2

/-- C8: construction fails fast exactly on a negative period, a negative
burst allowance, a negative sweep check interval or a non-positive
identifier length cap; the shared-store backend rejects exactly namespace
prefixes longer than 64 characters; and every decision call on any
configuration produces a verdict (no decision-time configuration
failure). -/
theorem c8_construction_validation :
    (∀ (p : ℚ) (n : ℤ) (c : ℚ) (cap : Option ℤ),
      (srlInit p n c cap).isOk = true
        ↔ (0 ≤ p ∧ 0 ≤ n ∧ 0 ≤ c ∧ ∀ k, cap = some k → 0 < k)) ∧
    (∀ pfx : String, (streamsCacheRedisInit pfx).isOk = true ↔ pfx.length ≤ 64) ∧
    (∀ (cfg : Config) (st : FilterState) (e : LogEvent) (now : ℚ),
      ∃ r : Verdict × FilterState, filter cfg st e now = r) := by
  refine ⟨?_, ?_, fun cfg st e now => ⟨filter cfg st e now, rfl⟩⟩
  · intro p n c cap
    unfold srlInit
    by_cases hp : p < 0
    · rw [if_pos hp]
      simp only [Except.isOk, Except.toBool, Bool.false_eq_true, false_iff]
      intro h
      exact absurd h.1 (not_le.mpr hp)
    rw [if_neg hp]
    by_cases hn : n < 0
    · rw [if_pos hn]
      simp only [Except.isOk, Except.toBool, Bool.false_eq_true, false_iff]
      intro h
      exact absurd h.2.1 (not_le.mpr hn)
    rw [if_neg hn]
    by_cases hc : c < 0
    · rw [if_pos hc]
      simp only [Except.isOk, Except.toBool, Bool.false_eq_true, false_iff]
      intro h
      exact absurd h.2.2.1 (not_le.mpr hc)
    rw [if_neg hc]
    split
    · rename_i k
      by_cases hk : k ≤ 0
      · rw [if_pos hk]
        simp only [Except.isOk, Except.toBool, Bool.false_eq_true, false_iff]
        intro h
        exact absurd (h.2.2.2 k rfl) (not_lt.mpr hk)
      · rw [if_neg hk]
        simp only [Except.isOk, Except.toBool, true_iff]
        refine ⟨not_lt.mp hp, not_lt.mp hn, not_lt.mp hc, ?_⟩
        intro k' hk'
        injection hk' with hkk
        rw [← hkk]
        exact not_le.mp hk
    · simp only [Except.isOk, Except.toBool, true_iff]
      refine ⟨not_lt.mp hp, not_lt.mp hn, not_lt.mp hc, ?_⟩
      intro k hk
      cases hk
  · intro pfx
    unfold streamsCacheRedisInit
    by_cases h : 64 < pfx.length
    · rw [if_pos h]
      simp only [Except.isOk, Except.toBool, Bool.false_eq_true, false_iff]
      exact not_le.mpr h
    · rw [if_neg h]
      simp only [Except.isOk, Except.toBool, true_iff]
      exact not_lt.mp h

/-- Witness for C8: a negative period is rejected, a well-formed
configuration and a short namespace prefix are accepted. -/
theorem c8_construction_validation_witness :
    (srlInit (-1) 0 0 none).isOk = false ∧
    (srlInit 1 2 60 (some 10)).isOk = true ∧
    (streamsCacheRedisInit "ab").isOk = true := by
  refine ⟨?_, ?_, ?_⟩
  · have h1 := c8_construction_validation.1 (-1) 0 0 none
    cases hb : (srlInit (-1) 0 0 none).isOk with
    | false => rfl
    | true =>
      have := h1.mp hb
      norm_num at this
  · exact (c8_construction_validation.1 1 2 60 (some 10)).mpr
      ⟨by norm_num, by norm_num, by norm_num,
       fun k hk => by injection hk with hh; omega⟩
  · exact (c8_construction_validation.2.1 "ab").mpr (by with_unfolding_all decide)

/-- C9: sweep gating: a decision whose expiry check fires sets the
next-check-due timestamp to its time plus the check interval; a check whose
next-check-due timestamp lies in the future performs no sweep and changes
nothing; and over any list of decisions at times up to the next-check-due
timestamp, no sweep is performed and the timestamp never moves, no matter
how many decisions occur. -/
theorem c9_sweep_gating :
    (∀ (cfg : Config) (st : FilterState) (e : LogEvent) (now : ℚ),
      dueForCheck st.next_expire_check_time now = true →
      (filter cfg st e now).2.next_expire_check_time
        = some (now + cfg.expire_check_sec)) ∧
    (∀ (cfg : Config) (st : FilterState) (off : ℚ) (m : ExpireArgs → String) (now c : ℚ),
      st.next_expire_check_time = some c → now ≤ c →
      checkExpiry cfg st off m now = ("", st)) ∧
    (∀ (cfg : Config) (st : FilterState) (evs : List (LogEvent × ℚ)) (c : ℚ),
      st.next_expire_check_time = some c → (∀ p ∈ evs, p.2 ≤ c) →
      (runFilter cfg st evs).2.next_expire_check_time = some c) := by
  refine ⟨?_, checkExpiry_not_due, ?_⟩
  · intro cfg st e now hdue
    rw [filter_nec, checkExpiry_due cfg st (e.expire_offset_sec.getD cfg.expire_offset_sec)
      (e.expire_msg.getD cfg.expire_msg) now hdue]
  · intro cfg st evs
    induction evs generalizing st with
    | nil =>
      intro c hc _
      exact hc
    | cons p rest ih =>
      obtain ⟨pe, pt⟩ := p
      intro c hc hall
      have hstep : (filter cfg st pe pt).2.next_expire_check_time = some c := by
        rw [filter_nec, checkExpiry_not_due cfg st
          (pe.expire_offset_sec.getD cfg.expire_offset_sec)
          (pe.expire_msg.getD cfg.expire_msg) pt c hc
          (hall (pe, pt) (List.mem_cons_self _ _))]
        exact hc
      have hrest : ∀ q ∈ rest, q.2 ≤ c := fun q hq => hall q (List.mem_cons_of_mem _ hq)
      show (runFilter cfg (filter cfg st pe pt).2 rest).2.next_expire_check_time = some c
      exact ih (filter cfg st pe pt).2 c hstep hrest

/-- Witness for C9: the first decision (check due) schedules the next check
60 s later; a check at t=30 against a next-check of 60 is skipped; two
decisions at t=10 and t=20 never move a next-check of 60. -/
theorem c9_sweep_gating_witness :
    (filter (mkCfg 1 0 true) initState (mkEvent "s" "m") 0).2.next_expire_check_time
      = some (0 + (mkCfg 1 0 true).expire_check_sec) ∧
    checkExpiry (mkCfg 1 0 true) ⟨some 60, []⟩ 900 expTemplate 30
      = ("", ⟨some 60, []⟩) ∧
    (runFilter (mkCfg 1 0 true) ⟨some 60, []⟩
      [(mkEvent "s" "m", 10), (mkEvent "s" "m", 20)]).2.next_expire_check_time
      = some 60 := by
  refine ⟨c9_sweep_gating.1 (mkCfg 1 0 true) initState (mkEvent "s" "m") 0 rfl,
    c9_sweep_gating.2.1 (mkCfg 1 0 true) ⟨some 60, []⟩ 900 expTemplate 30 60 rfl
      (by norm_num),
    c9_sweep_gating.2.2 (mkCfg 1 0 true) ⟨some 60, []⟩
      [(mkEvent "s" "m", 10), (mkEvent "s" "m", 20)] 60 rfl ?_⟩
  intro p hp
  rcases List.mem_cons.mp hp with h | h
  · rw [h]; norm_num
  · rcases List.mem_cons.mp h with h2 | h2
    · rw [h2]; norm_num
    · simp at h2

/-- C10: merely querying a never-seen stream through the get-or-create
lookup inserts a fresh default StreamState: the local store grows by one
and its keys now include the queried identifier; and the shared backend
persists a fresh default entry to the external store on such a read
miss. -/
theorem c10_query_inserts_state :
    (∀ (st : FilterState) (sid : StreamID) (now : ℚ),
      findKey st.streams sid = none →
      (should_trigger st sid now).2.streams = st.streams ++ [(sid, StreamInfo.init)] ∧
      (should_trigger st sid now).2.streams.length = st.streams.length + 1 ∧
      sid ∈ keysOf (should_trigger st sid now).2.streams ∧
      (should_trigger st sid now).1 = decide ((0:ℚ) ≤ now)) ∧
    (∀ (pfx : String) (md5 : String → String) (db : RedisDB) (k : StreamID),
      findKey db (redisKey pfx md5 k) = none →
      redisGetItem pfx md5 db k
        = (StreamInfo.init, db ++ [(redisKey pfx md5 k, StreamInfo.init)]) ∧
      findKey (redisGetItem pfx md5 db k).2 (redisKey pfx md5 k)
        = some StreamInfo.init) := by
  constructor
  · intro st sid now hnone
    have hgoc := getOrCreate_missing hnone
    refine ⟨?_, ?_, ?_, ?_⟩
    · show (getOrCreate st.streams sid).2 = _
      rw [hgoc]
    · show (getOrCreate st.streams sid).2.length = _
      rw [hgoc]
      simp
    · show sid ∈ keysOf (getOrCreate st.streams sid).2
      rw [hgoc]
      simp [keysOf]
    · show decide ((getOrCreate st.streams sid).1.next_valid_time ≤ now) = _
      rw [hgoc]
      rfl
  · intro pfx md5 db k hnone
    have hset := setKey_missing db (redisKey pfx md5 k) StreamInfo.init hnone
    have hget : redisGetItem pfx md5 db k
        = (StreamInfo.init, setKey db (redisKey pfx md5 k) StreamInfo.init) := by
      simp only [redisGetItem]
      rw [hnone]
    rw [hget, hset]
    exact ⟨rfl, findKey_append_self db _ _ hnone⟩

/-- Witness for C10: querying "x" on an empty local store inserts the
default entry; a read miss on an empty shared store persists the default
entry under the namespaced key. -/
theorem c10_query_inserts_state_witness :
    ((should_trigger ⟨none, []⟩ (some "x") 3).2.streams
        = ([] : Streams) ++ [(some "x", StreamInfo.init)] ∧
      (should_trigger ⟨none, []⟩ (some "x") 3).2.streams.length
        = ([] : Streams).length + 1 ∧
      some "x" ∈ keysOf (should_trigger ⟨none, []⟩ (some "x") 3).2.streams ∧
      (should_trigger ⟨none, []⟩ (some "x") 3).1 = decide ((0:ℚ) ≤ 3)) ∧
    (redisGetItem "P" (fun _ => "H") [] (some "x")
        = (StreamInfo.init, [] ++ [(redisKey "P" (fun _ => "H") (some "x"), StreamInfo.init)]) ∧
      findKey (redisGetItem "P" (fun _ => "H") [] (some "x")).2
        (redisKey "P" (fun _ => "H") (some "x")) = some StreamInfo.init) :=
  ⟨c10_query_inserts_state.1 ⟨none, []⟩ (some "x") 3 rfl,
   c10_query_inserts_state.2 "P" (fun _ => "H") [] (some "x") rfl⟩
